import Mathlib

/-!
Verification of the persistence layer of the python3-cms contact manager
(`src/main.py`, `src/models_sqlalchemy.py`).

The store is embedded as the list of rows of the `contacts` table, kept in
rowid (= `id`) order, which is the order in which SQLite returns rows for the
unordered full-table scans the code issues.  Each gateway operation of
`main.py` is translated into a pure function from the table to the new table
together with an optional error, mirroring the commit/rollback behaviour of
the SQLAlchemy session: a unique-constraint violation raises `IntegrityError`,
which the code catches and answers with `session.rollback()`, leaving the
table as it was.
-/

/-- A row of the `contacts` table (`models_sqlalchemy.py`, class `Contact`):
integer primary key `id` (autoincrement) and string columns `name`, `email`,
`phone`.  `email` and `phone` carry UNIQUE constraints. -/
structure Contact where
  id : Nat
  name : String
  email : String
  phone : String
deriving DecidableEq, Repr

/-- The state of the store: the rows of the `contacts` table in rowid order. -/
abbrev DB := List Contact

/-- The error kinds of the spec's taxonomy that the code's behaviour maps to:
`duplicateKey` models the caught `IntegrityError` of a UNIQUE violation,
`notFound` models the "No contact found with ID" path. -/
inductive CrudError where
  | duplicateKey
  | notFound
  | validation
deriving DecidableEq, Repr

/-- The largest id present in the table (0 when empty). -/
def maxId (db : DB) : Nat := db.foldr (fun c m => max c.id m) 0

/-- The rowid SQLite assigns to a fresh insert: one more than the current
largest rowid. -/
def nextId (db : DB) : Nat := maxId db + 1

/-- Does some row already hold this email (UNIQUE index on `email`)? -/
def emailTaken (db : DB) (e : String) : Bool := db.any (fun c => c.email == e)

/-- Does some row already hold this phone (UNIQUE index on `phone`)? -/
def phoneTaken (db : DB) (p : String) : Bool := db.any (fun c => c.phone == p)

/-- `add_contact` (`main.py` lines 74-97): build a `Contact` from the three
strings unchanged (no emptiness check exists in the code), `session.add` it
and commit.  Commit raises `IntegrityError` exactly when the UNIQUE index on
`email` or `phone` is violated; the handler rolls the session back, so the
table is unchanged and the error is reported.  Otherwise the row is inserted
with the next rowid. -/
def add_contact (db : DB) (name email phone : String) : DB × Option CrudError :=
  if emailTaken db email || phoneTaken db phone then
    (db, some CrudError.duplicateKey)
  else
    (db ++ [⟨nextId db, name, email, phone⟩], none)

/-- Python truthiness applied to an optional string field update
(`if new_email: contact.email = new_email`): `None` and the empty string
both leave the current value in place. -/
def applyTruthy (cur : String) (new? : Option String) : String :=
  match new? with
  | none => cur
  | some s => if s.isEmpty then cur else s

/-- The row as `update_contact` leaves it after its two truthiness-guarded
assignments (`if new_email: contact.email = new_email`, likewise `phone`);
`id` and `name` are never assigned. -/
def updatedRow (c : Contact) (new_email new_phone : Option String) : Contact :=
  { c with email := applyTruthy c.email new_email,
           phone := applyTruthy c.phone new_phone }

/-- Would committing row `c'` in place of the row with id `cid` violate the
UNIQUE index on `email` or `phone`?  True exactly when some other row already
holds the new email or phone. -/
def collides (db : DB) (cid : Nat) (c' : Contact) : Bool :=
  db.any (fun d => d.id != cid && (d.email == c'.email || d.phone == c'.phone))

/-- `update_contact` (`main.py` lines 144-174): look the row up by id
(`one_or_none`); when absent, report not-found and leave the table alone.
Otherwise overwrite `email` and `phone` under Python truthiness and commit;
if the new values collide with another row's UNIQUE-indexed values the commit
raises `IntegrityError` and the session is rolled back, else the mutated row
is persisted in place. -/
def update_contact (db : DB) (cid : Nat) (new_email new_phone : Option String) :
    DB × Option CrudError :=
  match db.find? (fun c => c.id == cid) with
  | none => (db, some CrudError.notFound)
  | some c =>
    if collides db cid (updatedRow c new_email new_phone) then
      (db, some CrudError.duplicateKey)
    else
      (db.map (fun d => if d.id == cid then updatedRow c new_email new_phone else d), none)

/-- `delete_contact` (`main.py` lines 176-197): look the row up by id; when
absent, report not-found and leave the table alone, otherwise delete it and
commit. -/
def delete_contact (db : DB) (cid : Nat) : DB × Option CrudError :=
  match db.find? (fun c => c.id == cid) with
  | none => (db, some CrudError.notFound)
  | some _ => (db.filter (fun c => c.id != cid), none)

/-- `list_contacts` (`main.py` lines 99-117): the query
`session.query(Contact).offset((page - 1) * per_page).limit(per_page).all()`
over the table in the order SQLite returns it (rowid order). -/
def list_contacts (db : DB) (page per_page : Nat) : List Contact :=
  (db.drop ((page - 1) * per_page)).take per_page

/-- The character sequence of a string with ASCII letters lowercased
(SQLite's `LIKE` is case-insensitive for ASCII only). -/
def lowerData (s : String) : List Char := s.data.map Char.toLower

/-- All suffixes of a character list, longest first (the original list down
to the empty list). -/
def suffixes : List Char → List (List Char)
  | [] => [[]]
  | c :: t => (c :: t) :: suffixes t

/-- SQLite `LIKE` pattern matching on character lists: `%` matches any
sequence of zero or more characters, `_` matches exactly one character, and
any other pattern character matches one character up to ASCII case.  The
code builds its patterns with `f"%{...}%"` and no ESCAPE clause, so `%` and
`_` inside a user-supplied filter keep their wildcard meaning. -/
def likeMatch : List Char → List Char → Bool
  | [], s => s.isEmpty
  | p :: ps, s =>
    if p = '%' then (suffixes s).any (fun t => likeMatch ps t)
    else
      match s with
      | [] => false
      | c :: t => (if p = '_' then true else p.toLower == c.toLower) && likeMatch ps t

/-- `col ilike '%pat%'` as the code issues it (`main.py` lines 211-216):
SQLite `LIKE` — ASCII-case-insensitive, with `%` and `_` of the filter
acting as wildcards — against the pattern `%` ++ `pat` ++ `%`. -/
def ilikeContains (col pat : String) : Bool :=
  likeMatch ('%' :: (pat.data ++ ['%'])) col.data

/-- Definition following the spec's words, for comparison with
`ilikeContains`: "every supplied field is a case-insensitive substring
match against the corresponding column" — the filter taken literally as a
substring, every character of it included. -/
def substringCI (col pat : String) : Bool :=
  (List.range ((lowerData col).length + 1)).any
    (fun i => (lowerData pat).isPrefixOf ((lowerData col).drop i))

/-- One optional search filter under Python truthiness (`if name: query =
query.filter(Contact.name.ilike(...))`): `None` and the empty string add no
filter. -/
def filterTruthy (field : String) (pat? : Option String) : Bool :=
  match pat? with
  | none => true
  | some s => if s.isEmpty then true else ilikeContains field s

/-- `search_contacts` (`main.py` lines 199-225): conjunction of the supplied
case-insensitive substring filters over the table. -/
def search_contacts (db : DB) (name email phone : Option String) : List Contact :=
  db.filter (fun c =>
    filterTruthy c.name name && filterTruthy c.email email && filterTruthy c.phone phone)

/-- Modelled from the spec: `Get(id)` ("returns the Contact or fails with
`NotFoundError`").  No standalone Get operation exists under `src/`; the
lookup-by-id idiom it abstracts is the `one_or_none` query of
`update_contact`/`delete_contact`. -/
def get_contact (db : DB) (cid : Nat) : Except CrudError Contact :=
  match db.find? (fun c => c.id == cid) with
  | none => Except.error CrudError.notFound
  | some c => Except.ok c

/-- A mutating gateway operation. -/
inductive Op where
  | create (name email phone : String)
  | update (cid : Nat) (new_email new_phone : Option String)
  | delete (cid : Nat)

/-- Run one mutating operation, returning the new table and the error, if
any. -/
def applyOp (db : DB) : Op → DB × Option CrudError
  | Op.create n e p => add_contact db n e p
  | Op.update cid ne np => update_contact db cid ne np
  | Op.delete cid => delete_contact db cid

/-- Run a sequence of mutating operations from a starting table; a failed
operation leaves the table as the rollback left it. -/
def runOps (db : DB) (ops : List Op) : DB :=
  ops.foldl (fun d op => (applyOp d op).1) db

/-- The table states reachable from the empty table by gateway operations. -/
def Reachable (db : DB) : Prop := ∃ ops : List Op, runOps [] ops = db

/-- ASCII uppercase of a string, modelling Python's `str.upper()` on the
ASCII configuration values involved. -/
def toUpperStr (s : String) : String := String.mk (s.data.map Char.toUpper)

/-- The whitelist of `read_config` (`main.py` line 42). -/
def valid_levels : List String := ["DEBUG", "INFO", "WARNING", "ERROR", "CRITICAL"]

/-- The configuration data `configparser` hands to `read_config`: whether the
two required sections exist, and the three optional values (a missing key
falls back to the default in `config.get`). -/
structure ConfigFile where
  hasDatabase : Bool
  hasLogging : Bool
  dbUrl : Option String
  logFile : Option String
  logLevel : Option String

/-- `read_config` (`main.py` lines 27-47): a missing section raises
`ValueError`; the three values fall back to their defaults; a log level whose
uppercase form is not in the whitelist is silently replaced by "INFO" (after
printing a message).  Returns `(db_url, log_file, log_level)`. -/
def read_config (cfg : ConfigFile) : Except String (String × String × String) :=
  if !cfg.hasDatabase then Except.error "Missing database section in config.ini."
  else if !cfg.hasLogging then Except.error "Missing logging section in config.ini."
  else
    let db_url := cfg.dbUrl.getD "sqlite:///contacts.db"
    let log_file := cfg.logFile.getD "contact_manager.log"
    let log_level := cfg.logLevel.getD "INFO"
    let log_level := if valid_levels.contains (toUpperStr log_level) then log_level else "INFO"
    Except.ok (db_url, log_file, log_level)

/-- The integer-valued attributes `getattr(logging, name, None)` can find on
Python's `logging` module (level names and aliases). -/
def loggingAttrInt (nm : String) : Option Nat :=
  if nm = "CRITICAL" then some 50
  else if nm = "FATAL" then some 50
  else if nm = "ERROR" then some 40
  else if nm = "WARNING" then some 30
  else if nm = "WARN" then some 30
  else if nm = "INFO" then some 20
  else if nm = "DEBUG" then some 10
  else if nm = "NOTSET" then some 0
  else none

/-- The numeric value of `logging.INFO`. -/
def logging_INFO : Nat := 20

/-- The level `setup_logging` (`main.py` lines 15-25) passes to
`logging.basicConfig`: `getattr(logging, log_level.upper(), None)` when that
is an int, otherwise `logging.INFO`. -/
def setup_logging_level (log_level : String) : Nat :=
  match loggingAttrInt (toUpperStr log_level) with
  | some n => n
  | none => logging_INFO

/-- The invariant the `contacts` table maintains: rows are in ascending rowid
order, and the UNIQUE indexes on `email` and `phone` hold. -/
structure TableInv (db : DB) : Prop where
  sorted : db.Pairwise (fun a b => a.id < b.id)
  emails : db.Pairwise (fun a b => a.email ≠ b.email)
  phones : db.Pairwise (fun a b => a.phone ≠ b.phone)

theorem id_le_maxId (db : DB) (c : Contact) (hc : c ∈ db) : c.id ≤ maxId db := by
  induction db with
  | nil => cases hc
  | cons x xs ih =>
    rcases List.mem_cons.mp hc with rfl | hmem
    · exact Nat.le_max_left _ _
    · exact Nat.le_trans (ih hmem) (Nat.le_max_right _ _)

theorem mem_eq_of_sorted_ids (db : DB) (a b : Contact)
    (hs : db.Pairwise (fun x y => x.id < y.id)) (ha : a ∈ db) (hb : b ∈ db)
    (hid : a.id = b.id) : a = b := by
  induction db with
  | nil => cases ha
  | cons x xs ih =>
    have hx := (List.pairwise_cons.mp hs).1
    have hxs := (List.pairwise_cons.mp hs).2
    rcases List.mem_cons.mp ha with rfl | ha' <;> rcases List.mem_cons.mp hb with rfl | hb'
    · rfl
    · exact absurd (hid ▸ hx b hb') (Nat.lt_irrefl _)
    · exact absurd (hid ▸ hx a ha') (Nat.lt_irrefl _)
    · exact ih hxs ha' hb'

theorem tableInv_nil : TableInv [] := ⟨List.Pairwise.nil, List.Pairwise.nil, List.Pairwise.nil⟩

theorem tableInv_add (db : DB) (n e p : String) (h : TableInv db) :
    TableInv (add_contact db n e p).1 := by
  rw [add_contact]
  by_cases hc : (emailTaken db e || phoneTaken db p) = true
  · rw [if_pos hc]; exact h
  · rw [if_neg hc]
    have hef : emailTaken db e = false := by
      cases he : emailTaken db e
      · rfl
      · exact absurd (by rw [he]; rfl) hc
    have hpf : phoneTaken db p = false := by
      cases hp : phoneTaken db p
      · rfl
      · exact absurd (by rw [hp, Bool.or_true]) hc
    have hemem : ∀ c ∈ db, c.email ≠ e := by
      intro c hcm heq
      have := List.any_eq_false.mp hef c hcm
      exact this (by simp [heq])
    have hpmem : ∀ c ∈ db, c.phone ≠ p := by
      intro c hcm heq
      have := List.any_eq_false.mp hpf c hcm
      exact this (by simp [heq])
    refine ⟨?_, ?_, ?_⟩
    · refine List.pairwise_append.mpr ⟨h.sorted, List.pairwise_singleton _ _, ?_⟩
      intro a ha b hb
      have hb' : b = ⟨nextId db, n, e, p⟩ := by simpa using hb
      subst hb'
      exact Nat.lt_succ_of_le (id_le_maxId db a ha)
    · refine List.pairwise_append.mpr ⟨h.emails, List.pairwise_singleton _ _, ?_⟩
      intro a ha b hb
      have hb' : b = ⟨nextId db, n, e, p⟩ := by simpa using hb
      subst hb'
      exact hemem a ha
    · refine List.pairwise_append.mpr ⟨h.phones, List.pairwise_singleton _ _, ?_⟩
      intro a ha b hb
      have hb' : b = ⟨nextId db, n, e, p⟩ := by simpa using hb
      subst hb'
      exact hpmem a ha

theorem tableInv_delete (db : DB) (cid : Nat) (h : TableInv db) :
    TableInv (delete_contact db cid).1 := by
  rw [delete_contact]
  cases hf : db.find? (fun c => c.id == cid) with
  | none => exact h
  | some c =>
    exact ⟨List.Pairwise.sublist (List.filter_sublist _) h.sorted,
           List.Pairwise.sublist (List.filter_sublist _) h.emails,
           List.Pairwise.sublist (List.filter_sublist _) h.phones⟩

theorem collides_false_spec (db : DB) (cid : Nat) (c' : Contact)
    (h : collides db cid c' = false) :
    ∀ d ∈ db, d.id ≠ cid → d.email ≠ c'.email ∧ d.phone ≠ c'.phone := by
  intro d hd hdid
  have hall := List.any_eq_false.mp h d hd
  constructor
  · intro heq
    exact hall (by simp [hdid, heq])
  · intro heq
    exact hall (by simp [hdid, heq])

theorem tableInv_update (db : DB) (cid : Nat) (ne np : Option String) (h : TableInv db) :
    TableInv (update_contact db cid ne np).1 := by
  rw [update_contact]
  cases hf : db.find? (fun c => c.id == cid) with
  | none => exact h
  | some c =>
    show TableInv
      (if collides db cid (updatedRow c ne np) then (db, some CrudError.duplicateKey)
       else (db.map (fun d => if d.id == cid then updatedRow c ne np else d), none)).1
    by_cases hcol : collides db cid (updatedRow c ne np) = true
    · rw [if_pos hcol]; exact h
    · rw [if_neg hcol]
      have hcol' := collides_false_spec db cid (updatedRow c ne np) (Bool.eq_false_iff.mpr hcol)
      have hcid : c.id = cid := by
        have := List.find?_some hf
        simpa using this
      have hrowid : ∀ d : Contact,
          (if d.id == cid then updatedRow c ne np else d).id = d.id := by
        intro d
        by_cases hd : d.id = cid
        · simp [hd, updatedRow, hcid]
        · simp [hd]
      refine ⟨?_, ?_, ?_⟩
      · rw [List.pairwise_map]
        refine h.sorted.imp ?_
        intro a b hab
        rw [hrowid, hrowid]
        exact hab
      · rw [List.pairwise_map]
        refine List.Pairwise.imp_of_mem ?_ (h.sorted.and h.emails)
        intro a b ha hb hab
        by_cases ha' : a.id = cid <;> by_cases hb' : b.id = cid
        · exact absurd hab.1 (by omega)
        · rw [if_pos (show (a.id == cid) = true from by simp [ha']),
              if_neg (show ¬ (b.id == cid) = true from by simp [hb'])]
          exact fun heq => (hcol' b hb hb').1 heq.symm
        · rw [if_neg (show ¬ (a.id == cid) = true from by simp [ha']),
              if_pos (show (b.id == cid) = true from by simp [hb'])]
          exact (hcol' a ha ha').1
        · rw [if_neg (show ¬ (a.id == cid) = true from by simp [ha']),
              if_neg (show ¬ (b.id == cid) = true from by simp [hb'])]
          exact hab.2
      · rw [List.pairwise_map]
        refine List.Pairwise.imp_of_mem ?_ (h.sorted.and h.phones)
        intro a b ha hb hab
        by_cases ha' : a.id = cid <;> by_cases hb' : b.id = cid
        · exact absurd hab.1 (by omega)
        · rw [if_pos (show (a.id == cid) = true from by simp [ha']),
              if_neg (show ¬ (b.id == cid) = true from by simp [hb'])]
          exact fun heq => (hcol' b hb hb').2 heq.symm
        · rw [if_neg (show ¬ (a.id == cid) = true from by simp [ha']),
              if_pos (show (b.id == cid) = true from by simp [hb'])]
          exact (hcol' a ha ha').2
        · rw [if_neg (show ¬ (a.id == cid) = true from by simp [ha']),
              if_neg (show ¬ (b.id == cid) = true from by simp [hb'])]
          exact hab.2

theorem tableInv_applyOp (db : DB) (op : Op) (h : TableInv db) :
    TableInv (applyOp db op).1 := by
  cases op with
  | create n e p => exact tableInv_add db n e p h
  | update cid ne np => exact tableInv_update db cid ne np h
  | delete cid => exact tableInv_delete db cid h

theorem tableInv_runOps (ops : List Op) : ∀ (db : DB), TableInv db → TableInv (runOps db ops) := by
  induction ops with
  | nil => intro db h; exact h
  | cons op rest ih =>
    intro db h
    exact ih _ (tableInv_applyOp db op h)

theorem reachable_tableInv (db : DB) (h : Reachable db) : TableInv db := by
  obtain ⟨ops, hops⟩ := h
  exact hops ▸ tableInv_runOps ops [] tableInv_nil

/-- C1 counterexample: `Create("", "", "")` on an empty store does not fail
with any error — in particular not `ValidationError` — and a row with all
three fields empty is inserted. -/
theorem create_empty_accepted_cex :
    add_contact [] "" "" "" = ([⟨1, "", "", ""⟩], none) := by decide

/-- C1 (amended): `add_contact` performs no emptiness validation at all.  A
call in which name, email, or phone is the empty string does not fail with
`ValidationError`; whenever the email and phone are not already taken it
succeeds and inserts the row, empty fields included. -/
theorem create_empty_no_validation (db : DB) (n e p : String)
    (hempty : n = "" ∨ e = "" ∨ p = "")
    (he : emailTaken db e = false) (hp : phoneTaken db p = false) :
    add_contact db n e p = (db ++ [⟨nextId db, n, e, p⟩], none) := by
  rw [add_contact, if_neg]
  rw [he, hp]
  simp

/-- C1 witness: inserting a contact with an empty name succeeds. -/
theorem create_empty_no_validation_witness :
    add_contact [⟨1, "A", "a", "1"⟩] "" "b" "2" =
      ([⟨1, "A", "a", "1"⟩, ⟨2, "", "b", "2"⟩], none) := by
  have h := create_empty_no_validation [⟨1, "A", "a", "1"⟩] "" "b" "2"
    (Or.inl rfl) (by decide) (by decide)
  exact h.trans (by decide)

/-- C3: a `Create` whose email or phone equals an existing row's fails with
the duplicate-key error and leaves the row count (indeed the whole table)
unchanged. -/
theorem create_duplicate_fails (db : DB) (n e p : String) (c : Contact)
    (hc : c ∈ db) (hdup : c.email = e ∨ c.phone = p) :
    add_contact db n e p = (db, some CrudError.duplicateKey)
    ∧ (add_contact db n e p).1.length = db.length := by
  have htaken : (emailTaken db e || phoneTaken db p) = true := by
    rcases hdup with h | h
    · have : emailTaken db e = true := List.any_eq_true.mpr ⟨c, hc, by simp [h]⟩
      rw [this, Bool.true_or]
    · have : phoneTaken db p = true := List.any_eq_true.mpr ⟨c, hc, by simp [h]⟩
      rw [this, Bool.or_true]
  have heq : add_contact db n e p = (db, some CrudError.duplicateKey) := by
    rw [add_contact, if_pos htaken]
  exact ⟨heq, by rw [heq]⟩

/-- C3 witness: adding a contact whose email is already present fails with
the duplicate-key error and leaves the table unchanged. -/
theorem create_duplicate_fails_witness :
    add_contact [⟨1, "A", "a", "1"⟩] "B" "a" "2" =
      ([⟨1, "A", "a", "1"⟩], some CrudError.duplicateKey) :=
  (create_duplicate_fails [⟨1, "A", "a", "1"⟩] "B" "a" "2" ⟨1, "A", "a", "1"⟩
    (by decide) (Or.inl rfl)).1

/-- C4: every mutating operation (create, update, delete) that returns an
error leaves the table exactly as it was before the call. -/
theorem mutating_error_rollback (db : DB) (op : Op) (err : CrudError)
    (h : (applyOp db op).2 = some err) : (applyOp db op).1 = db := by
  cases op with
  | create n e p =>
    rw [applyOp, add_contact] at h ⊢
    by_cases hc : (emailTaken db e || phoneTaken db p) = true
    · rw [if_pos hc]
    · rw [if_neg hc] at h
      simp at h
  | update cid ne np =>
    rw [applyOp] at h ⊢
    rw [update_contact] at h ⊢
    revert h
    cases hf : db.find? (fun c => c.id == cid) with
    | none => intro h; rfl
    | some c =>
      intro h
      have h' : (if collides db cid (updatedRow c ne np)
          then (db, some CrudError.duplicateKey)
          else (db.map (fun d => if d.id == cid then updatedRow c ne np else d),
                none)).2 = some err := h
      show (if collides db cid (updatedRow c ne np) then (db, some CrudError.duplicateKey)
        else (db.map (fun d => if d.id == cid then updatedRow c ne np else d), none)).1 = db
      by_cases hcol : collides db cid (updatedRow c ne np) = true
      · rw [if_pos hcol]
      · rw [if_neg hcol] at h'
        simp at h'
  | delete cid =>
    rw [applyOp] at h ⊢
    rw [delete_contact] at h ⊢
    revert h
    cases hf : db.find? (fun c => c.id == cid) with
    | none => intro h; rfl
    | some c =>
      intro h
      have h' : ((db.filter (fun c => c.id != cid), (none : Option CrudError))).2
          = some err := h
      simp at h'

/-- C4 witness: deleting from an empty store errors and leaves the store
empty. -/
theorem mutating_error_rollback_witness :
    (applyOp [] (Op.delete 1)).2 = some CrudError.notFound
    ∧ (applyOp [] (Op.delete 1)).1 = [] :=
  ⟨by decide, mutating_error_rollback [] (Op.delete 1) CrudError.notFound (by decide)⟩

/-- C2: on every reachable store and every page, per_page >= 1, listing
returns the slice of the id-ascending table that skips (page-1)*per_page
rows and takes at most per_page; the result is itself in ascending id order,
and a page beyond the last record yields the empty sequence, not an error. -/
theorem list_contacts_paginates (db : DB) (page per_page : Nat)
    (hreach : Reachable db) (hpage : 1 ≤ page) (hper : 1 ≤ per_page) :
    list_contacts db page per_page = (db.drop ((page - 1) * per_page)).take per_page
    ∧ (list_contacts db page per_page).Pairwise (fun a b => a.id < b.id)
    ∧ (db.length ≤ (page - 1) * per_page → list_contacts db page per_page = []) := by
  refine ⟨rfl, ?_, ?_⟩
  · have hs := (reachable_tableInv db hreach).sorted
    exact List.Pairwise.sublist
      ((List.take_sublist _ _).trans (List.drop_sublist _ _)) hs
  · intro hlen
    rw [list_contacts, List.drop_eq_nil_of_le hlen, List.take_nil]

/-- C2 witness: on a reachable store with exactly 10 rows, page 2 with
per_page 10 returns the empty sequence. -/
theorem list_contacts_paginates_witness :
    list_contacts
      [⟨1, "n1", "e1", "p1"⟩, ⟨2, "n2", "e2", "p2"⟩, ⟨3, "n3", "e3", "p3"⟩,
       ⟨4, "n4", "e4", "p4"⟩, ⟨5, "n5", "e5", "p5"⟩, ⟨6, "n6", "e6", "p6"⟩,
       ⟨7, "n7", "e7", "p7"⟩, ⟨8, "n8", "e8", "p8"⟩, ⟨9, "n9", "e9", "p9"⟩,
       ⟨10, "n10", "e10", "p10"⟩] 2 10 = [] := by
  have h := list_contacts_paginates
    [⟨1, "n1", "e1", "p1"⟩, ⟨2, "n2", "e2", "p2"⟩, ⟨3, "n3", "e3", "p3"⟩,
     ⟨4, "n4", "e4", "p4"⟩, ⟨5, "n5", "e5", "p5"⟩, ⟨6, "n6", "e6", "p6"⟩,
     ⟨7, "n7", "e7", "p7"⟩, ⟨8, "n8", "e8", "p8"⟩, ⟨9, "n9", "e9", "p9"⟩,
     ⟨10, "n10", "e10", "p10"⟩] 2 10
    ⟨[Op.create "n1" "e1" "p1", Op.create "n2" "e2" "p2", Op.create "n3" "e3" "p3",
      Op.create "n4" "e4" "p4", Op.create "n5" "e5" "p5", Op.create "n6" "e6" "p6",
      Op.create "n7" "e7" "p7", Op.create "n8" "e8" "p8", Op.create "n9" "e9" "p9",
      Op.create "n10" "e10" "p10"], by decide⟩
    (by decide) (by decide)
  exact h.2.2 (by decide)

/-- C5 counterexample: the store holding exactly one contact with empty
name, email and phone is reachable (a single Create call), so not every
persisted contact has non-empty fields. -/
theorem persisted_invariant_cex :
    Reachable [⟨1, "", "", ""⟩]
    ∧ ¬ (∀ c ∈ ([⟨1, "", "", ""⟩] : DB), c.name ≠ "" ∧ c.email ≠ "" ∧ c.phone ≠ "") := by
  constructor
  · exact ⟨[Op.create "" "" ""], by decide⟩
  · intro hall
    exact (hall ⟨1, "", "", ""⟩ (by decide)).1 rfl

/-- C5 (amended): in every reachable store state the uniqueness half of the
invariant holds — no two persisted contacts share an email and no two share
a phone — but names, emails and phones may be empty, since Create performs
no emptiness validation. -/
theorem persisted_uniqueness_inv (db : DB) (hreach : Reachable db) :
    db.Pairwise (fun a b => a.email ≠ b.email)
    ∧ db.Pairwise (fun a b => a.phone ≠ b.phone) :=
  ⟨(reachable_tableInv db hreach).emails, (reachable_tableInv db hreach).phones⟩

/-- C5 witness: the uniqueness invariant on a concrete two-row reachable
store. -/
theorem persisted_uniqueness_inv_witness :
    ([⟨1, "A", "a", "1"⟩, ⟨2, "B", "b", "2"⟩] : DB).Pairwise (fun a b => a.email ≠ b.email)
    ∧ ([⟨1, "A", "a", "1"⟩, ⟨2, "B", "b", "2"⟩] : DB).Pairwise (fun a b => a.phone ≠ b.phone) :=
  persisted_uniqueness_inv [⟨1, "A", "a", "1"⟩, ⟨2, "B", "b", "2"⟩]
    ⟨[Op.create "A" "a" "1", Op.create "B" "b" "2"], by decide⟩

/-- C6: updating an existing id on a reachable store changes only the
supplied (truthy) fields of that row — a supplied email is set, an omitted
field keeps its old value — and the id and name of that row and every other
row are left untouched, provided the new values collide with no other row. -/
theorem update_frame_effect (db : DB) (cid : Nat) (ne np : Option String) (c : Contact)
    (hreach : Reachable db)
    (hfind : db.find? (fun d => d.id == cid) = some c)
    (hnocol : ∀ d ∈ db, d.id ≠ cid →
      d.email ≠ applyTruthy c.email ne ∧ d.phone ≠ applyTruthy c.phone np) :
    update_contact db cid ne np =
      (db.map (fun d => if d.id == cid then
        { id := d.id, name := d.name, email := applyTruthy d.email ne,
          phone := applyTruthy d.phone np } else d), none) := by
  rw [update_contact, hfind]
  show (if collides db cid (updatedRow c ne np) then (db, some CrudError.duplicateKey)
    else (db.map (fun d => if d.id == cid then updatedRow c ne np else d), none))
    = (db.map (fun d => if d.id == cid then
        { id := d.id, name := d.name, email := applyTruthy d.email ne,
          phone := applyTruthy d.phone np } else d), none)
  have hcol : collides db cid (updatedRow c ne np) = false := by
    apply List.any_eq_false.mpr
    intro d hd
    by_cases hdid : d.id = cid
    · simp [hdid]
    · have := hnocol d hd hdid
      simp [updatedRow, hdid, this.1, this.2]
  rw [if_neg (by rw [hcol]; simp)]
  have hinv := reachable_tableInv db hreach
  have hc : c ∈ db := List.mem_of_find?_eq_some hfind
  have hcid : c.id = cid := by
    have := List.find?_some hfind
    simpa using this
  refine congrArg (fun l => (l, none)) (List.map_congr_left ?_)
  intro d hd
  by_cases hdid : d.id = cid
  · rw [if_pos (by simp [hdid]), if_pos (by simp [hdid])]
    have : d = c := mem_eq_of_sorted_ids db d c hinv.sorted hd hc (hdid.trans hcid.symm)
    subst this
    rfl
  · rw [if_neg (by simp [hdid]), if_neg (by simp [hdid])]

/-- C6 witness: setting only the email of contact 1 changes exactly that
field; name, phone, id and the other row are untouched. -/
theorem update_frame_effect_witness :
    update_contact [⟨1, "A", "a", "1"⟩, ⟨2, "B", "b", "2"⟩] 1 (some "x") none
      = ([⟨1, "A", "x", "1"⟩, ⟨2, "B", "b", "2"⟩], none) := by
  have h := update_frame_effect [⟨1, "A", "a", "1"⟩, ⟨2, "B", "b", "2"⟩] 1
    (some "x") none ⟨1, "A", "a", "1"⟩
    ⟨[Op.create "A" "a" "1", Op.create "B" "b" "2"], by decide⟩
    (by decide) (by decide)
  exact h.trans (by decide)

theorem nil_mem_suffixes (s : List Char) : [] ∈ suffixes s := by
  induction s with
  | nil => exact List.mem_singleton.mpr rfl
  | cons c t ih => exact List.mem_cons_of_mem _ ih

theorem self_mem_suffixes (s : List Char) : s ∈ suffixes s := by
  cases s with
  | nil => exact List.mem_singleton.mpr rfl
  | cons c t => exact List.mem_cons_self _ _

theorem likeMatch_percent_cons (ps s : List Char) :
    likeMatch ('%' :: ps) s = (suffixes s).any (fun t => likeMatch ps t) := by
  simp [likeMatch]

theorem likeMatch_cons_nil (p : Char) (ps : List Char) (hp : p ≠ '%') :
    likeMatch (p :: ps) [] = false := by
  simp [likeMatch, hp]

theorem likeMatch_cons_cons (p : Char) (ps : List Char) (c : Char) (t : List Char)
    (hp : p ≠ '%') (hp2 : p ≠ '_') :
    likeMatch (p :: ps) (c :: t) = ((p.toLower == c.toLower) && likeMatch ps t) := by
  simp [likeMatch, hp, hp2]

theorem likeMatch_percent_only (t : List Char) : likeMatch ['%'] t = true := by
  rw [likeMatch_percent_cons]
  exact List.any_eq_true.mpr ⟨[], nil_mem_suffixes t, rfl⟩

theorem ilikeContains_empty_pat (col : String) : ilikeContains col "" = true := by
  rw [ilikeContains]
  have hd : ("".data : List Char) = [] := by decide
  rw [hd, List.nil_append, likeMatch_percent_cons]
  exact List.any_eq_true.mpr ⟨col.data, self_mem_suffixes col.data,
    likeMatch_percent_only col.data⟩

theorem filterTruthy_eq_true_iff (field : String) (pat? : Option String) :
    filterTruthy field pat? = true ↔ ∀ s, pat? = some s → ilikeContains field s = true := by
  cases pat? with
  | none => simp [filterTruthy]
  | some s =>
    rw [filterTruthy]
    by_cases hs : s.isEmpty = true
    · have hs' : s = "" := (String.isEmpty_iff s).mp hs
      rw [if_pos hs]
      simp [hs', ilikeContains_empty_pat]
    · rw [if_neg hs]
      simp

theorem suffixes_eq_map_range (s : List Char) :
    suffixes s = (List.range (s.length + 1)).map (fun i => s.drop i) := by
  induction s with
  | nil => decide
  | cons c t ih =>
    have hr : (List.range ((c :: t).length + 1)).map (fun i => (c :: t).drop i)
        = (c :: t) :: (List.range (t.length + 1)).map (fun i => t.drop i) := by
      rw [show (c :: t).length + 1 = (t.length + 1) + 1 from rfl, List.range_succ_eq_map,
        List.map_cons, List.map_map]
      refine List.cons_eq_cons.mpr ⟨rfl, ?_⟩
      apply List.map_congr_left
      intro i _hi
      simp [Function.comp, List.drop_succ_cons]
    rw [hr]
    show (c :: t) :: suffixes t = (c :: t) :: (List.range (t.length + 1)).map (fun i => t.drop i)
    exact congrArg _ ih

theorem likeMatch_plain_append :
    ∀ (pat : List Char), (∀ ch ∈ pat, ch ≠ '%' ∧ ch ≠ '_') →
    ∀ t : List Char, likeMatch (pat ++ ['%']) t
      = (pat.map Char.toLower).isPrefixOf (t.map Char.toLower) := by
  intro pat
  induction pat with
  | nil =>
    intro _h t
    rw [List.nil_append, List.map_nil, likeMatch_percent_only]
    exact List.isPrefixOf_nil_left.symm
  | cons p ps ih =>
    intro h t
    have hp := h p (List.mem_cons_self p ps)
    rw [List.cons_append]
    cases t with
    | nil =>
      rw [likeMatch_cons_nil _ _ hp.1, List.map_cons, List.map_nil]
      exact List.isPrefixOf_cons_nil.symm
    | cons c t' =>
      rw [likeMatch_cons_cons _ _ _ _ hp.1 hp.2]
      rw [ih (fun ch hch => h ch (List.mem_cons_of_mem _ hch)) t']
      rw [List.map_cons, List.map_cons, List.isPrefixOf_cons₂]

theorem any_eq_of_mem_eq {α : Type} (l : List α) (f g : α → Bool)
    (h : ∀ a ∈ l, f a = g a) : l.any f = l.any g := by
  induction l with
  | nil => rfl
  | cons x xs ih =>
    rw [List.any_cons, List.any_cons, h x (List.mem_cons_self x xs),
      ih (fun a ha => h a (List.mem_cons_of_mem _ ha))]

theorem any_map_heterog {α β : Type} (l : List α) (f : α → β) (p : β → Bool) :
    (l.map f).any p = l.any (fun a => p (f a)) := by
  induction l with
  | nil => rfl
  | cons x xs ih => rw [List.map_cons, List.any_cons, List.any_cons, ih]

theorem ilike_plain_eq_substring (col pat : String)
    (h : ∀ ch ∈ pat.data, ch ≠ '%' ∧ ch ≠ '_') :
    ilikeContains col pat = substringCI col pat := by
  rw [ilikeContains, likeMatch_percent_cons, suffixes_eq_map_range, any_map_heterog]
  rw [substringCI]
  rw [show (lowerData col).length = col.data.length from by rw [lowerData, List.length_map]]
  apply any_eq_of_mem_eq
  intro i _hi
  show likeMatch (pat.data ++ ['%']) (col.data.drop i)
    = (lowerData pat).isPrefixOf ((lowerData col).drop i)
  rw [likeMatch_plain_append pat.data h (col.data.drop i)]
  rw [lowerData, lowerData, List.map_drop]

/-- C7 counterexample: the code's unescaped `ilike` gives SQL wildcard
meaning to an underscore in a filter: searching phone "55_5" returns the
contact with phone "555-5678" (the `_` matches the dash), although "55_5"
is not a case-insensitive substring of "555-5678" — so Search does not
return exactly the contacts on which every supplied filter is a substring
match. -/
theorem search_substring_cex :
    search_contacts [⟨1, "Bob", "bob@example.com", "555-5678"⟩] none none (some "55_5")
      = [⟨1, "Bob", "bob@example.com", "555-5678"⟩]
    ∧ substringCI "555-5678" "55_5" = false := by
  constructor
  · decide
  · decide

/-- C7 (amended): membership in a search result holds exactly for the
stored contacts on which every supplied filter matches the corresponding
column under SQLite LIKE `%filter%` semantics — ASCII-case-insensitive,
with `%` and `_` of the filter acting as wildcards, since the code escapes
nothing.  For a filter containing neither `%` nor `_` this coincides with
the case-insensitive substring match of the spec; in particular, on a store
holding Alice and Bob, searching name "ali" returns exactly the Alice
record, and an unmatched filter set yields the empty sequence (covered by
the exactness of the equivalence). -/
theorem search_like_characterization :
    (∀ (db : DB) (n e p : Option String) (c : Contact),
      c ∈ search_contacts db n e p ↔
        c ∈ db ∧ (∀ s, n = some s → ilikeContains c.name s = true)
               ∧ (∀ s, e = some s → ilikeContains c.email s = true)
               ∧ (∀ s, p = some s → ilikeContains c.phone s = true))
    ∧ (∀ (col pat : String), (∀ ch ∈ pat.data, ch ≠ '%' ∧ ch ≠ '_') →
        ilikeContains col pat = substringCI col pat)
    ∧ search_contacts
        [⟨1, "Alice", "alice@example.com", "555-1234"⟩,
         ⟨2, "Bob", "bob@example.com", "555-5678"⟩] (some "ali") none none
        = [⟨1, "Alice", "alice@example.com", "555-1234"⟩] := by
  refine ⟨?_, ?_, ?_⟩
  · intro db n e p c
    rw [search_contacts, List.mem_filter]
    simp only [Bool.and_eq_true, filterTruthy_eq_true_iff]
    constructor
    · rintro ⟨hm, ⟨hn, he⟩, hp⟩
      exact ⟨hm, hn, he, hp⟩
    · rintro ⟨hm, hn, he, hp⟩
      exact ⟨hm, ⟨hn, he⟩, hp⟩
  · exact fun col pat h => ilike_plain_eq_substring col pat h
  · decide

/-- C8: deleting an existing id removes exactly that contact and succeeds;
deleting a missing id fails with the not-found error; hence after a
successful delete both a Get and a second Delete of the same id fail with
the not-found error. -/
theorem delete_semantics (db : DB) (cid : Nat) :
    (∀ c, db.find? (fun d => d.id == cid) = some c →
      delete_contact db cid = (db.filter (fun d => d.id != cid), none)
      ∧ get_contact (delete_contact db cid).1 cid = Except.error CrudError.notFound
      ∧ delete_contact (delete_contact db cid).1 cid
          = ((delete_contact db cid).1, some CrudError.notFound))
    ∧ (db.find? (fun d => d.id == cid) = none →
      delete_contact db cid = (db, some CrudError.notFound)) := by
  constructor
  · intro c hf
    have h1 : delete_contact db cid = (db.filter (fun d => d.id != cid), none) := by
      rw [delete_contact, hf]
    have hnone : (db.filter (fun d => d.id != cid)).find? (fun d => d.id == cid) = none := by
      apply List.find?_eq_none.mpr
      intro x hx
      have hmem := List.mem_filter.mp hx
      simp only [bne_iff_ne, ne_eq] at hmem
      simp [hmem.2]
    refine ⟨h1, ?_, ?_⟩
    · rw [h1]
      show get_contact (db.filter (fun d => d.id != cid)) cid = Except.error CrudError.notFound
      rw [get_contact, hnone]
    · rw [h1]
      show delete_contact (db.filter (fun d => d.id != cid)) cid
        = (db.filter (fun d => d.id != cid), some CrudError.notFound)
      rw [delete_contact, hnone]
  · intro hf
    rw [delete_contact, hf]

/-- C8 witness: deleting the only contact succeeds and removes it; a Get and
a second Delete of the same id then fail with the not-found error. -/
theorem delete_semantics_witness :
    delete_contact [⟨1, "A", "a", "1"⟩] 1 = ([], none)
    ∧ get_contact [] 1 = Except.error CrudError.notFound
    ∧ delete_contact [] 1 = ([], some CrudError.notFound) := by
  have h := (delete_semantics [⟨1, "A", "a", "1"⟩] 1).1 ⟨1, "A", "a", "1"⟩ (by decide)
  have hf : List.filter (fun d => d.id != 1) [(⟨1, "A", "a", "1"⟩ : Contact)] = [] := by decide
  rw [hf] at h
  obtain ⟨h1, h2, h3⟩ := h
  rw [h1] at h2 h3
  exact ⟨h1, h2, h3⟩

/-- C9: in `update_contact` a supplied empty string behaves exactly like an
omitted field, for the email and for the phone alike — so an Update can
never set any field to the empty string. -/
theorem update_empty_string_omitted (db : DB) (cid : Nat) (ne np : Option String) :
    update_contact db cid (some "") np = update_contact db cid none np
    ∧ update_contact db cid ne (some "") = update_contact db cid ne none := by
  have key : ∀ (cur : String), applyTruthy cur (some "") = applyTruthy cur none := by
    intro cur
    rfl
  constructor
  · rw [update_contact, update_contact]
    cases hf : db.find? (fun c => c.id == cid) with
    | none => rfl
    | some c =>
      show (if collides db cid (updatedRow c (some "") np) then (db, some CrudError.duplicateKey)
        else (db.map (fun d => if d.id == cid then updatedRow c (some "") np else d), none))
        = (if collides db cid (updatedRow c none np) then (db, some CrudError.duplicateKey)
        else (db.map (fun d => if d.id == cid then updatedRow c none np else d), none))
      have hrow : updatedRow c (some "") np = updatedRow c none np := by
        rw [updatedRow, updatedRow, key]
      rw [hrow]
  · rw [update_contact, update_contact]
    cases hf : db.find? (fun c => c.id == cid) with
    | none => rfl
    | some c =>
      show (if collides db cid (updatedRow c ne (some "")) then (db, some CrudError.duplicateKey)
        else (db.map (fun d => if d.id == cid then updatedRow c ne (some "") else d), none))
        = (if collides db cid (updatedRow c ne none) then (db, some CrudError.duplicateKey)
        else (db.map (fun d => if d.id == cid then updatedRow c ne none else d), none))
      have hrow : updatedRow c ne (some "") = updatedRow c ne none := by
        rw [updatedRow, updatedRow, key]
      rw [hrow]

/-- C10: when both required sections are present and the configured log
level is not (case-insensitively) one of the five valid names, reading the
configuration still succeeds — no error — with the level silently replaced
by "INFO", and the level `setup_logging` then hands to `logging.basicConfig`
is `logging.INFO`. -/
theorem invalid_log_level_defaults_info (cfg : ConfigFile) (lvl : String)
    (hdb : cfg.hasDatabase = true) (hlog : cfg.hasLogging = true)
    (hlvl : cfg.logLevel = some lvl)
    (hbad : valid_levels.contains (toUpperStr lvl) = false) :
    read_config cfg = Except.ok (cfg.dbUrl.getD "sqlite:///contacts.db",
      cfg.logFile.getD "contact_manager.log", "INFO")
    ∧ setup_logging_level "INFO" = logging_INFO := by
  constructor
  · have hbad' : toUpperStr lvl ∉ valid_levels := by simpa using hbad
    rw [read_config, hdb, hlog, hlvl]
    simp [hbad']
  · rfl

/-- C10 witness: the level "verbose" is invalid; config reading succeeds and
the effective level is `logging.INFO`. -/
theorem invalid_log_level_defaults_info_witness :
    read_config ⟨true, true, none, none, some "verbose"⟩ =
      Except.ok ("sqlite:///contacts.db", "contact_manager.log", "INFO")
    ∧ setup_logging_level "INFO" = logging_INFO := by
  have h := invalid_log_level_defaults_info ⟨true, true, none, none, some "verbose"⟩
    "verbose" rfl rfl rfl (by decide)
  exact ⟨h.1.trans (by rfl), h.2⟩
